import Mathlib

/-!
Shallow embedding of the lead-accountability engine:
`src/server/services/monitor.ts` (detection and expiry resolution),
`src/server/services/fub.ts` (CRM client: call history, tag application),
`src/server/services/email.ts` (notification dispatcher) and
`src/server/db/schema.ts` (tables and the administrative source routes).

Timestamps are milliseconds as `Nat`.  The drizzle tables are lists of
records; `serial` primary keys are threaded explicitly.  Fallible external
calls are `Except Unit` oracles supplied in an environment record.
-/

/-- Lifecycle state of a lead assignment (the `status` varchar of
`lead_assignments`; defaults to `"pending"`). -/
inductive Status
  | pending
  | called
  | reassigned
deriving DecidableEq, Repr

/-- One row of the `lead_assignments` table (schema.ts lines 3-16). -/
structure LeadAssignment where
  id : Nat
  fubLeadId : Nat
  agentId : Nat
  agentName : String
  agentEmail : String
  leadName : String
  assignedAt : Nat
  timerExpiresAt : Nat
  status : Status
  callDetectedAt : Option Nat
  notifiedAt : Option Nat
  reassignedAt : Option Nat
deriving DecidableEq, Repr

/-- One row of the `monitored_sources` table (schema.ts lines 27-34).
`enabled` is an integer column compared against 1, as in the source. -/
structure MonitoredSource where
  id : Nat
  sourceName : String
  timerMinutes : Nat
  enabled : Nat
  createdAt : Nat
  createdBy : Option String
deriving DecidableEq, Repr

/-- The assignee object on a FUB person (`assignedTo` in fub.ts). -/
structure Assignee where
  id : Nat
  name : String
  email : Option String
deriving DecidableEq, Repr

/-- A FUB person record as consumed by the monitor (fub.ts `FubPerson`). -/
structure FubLead where
  id : Nat
  name : String
  assignedTo : Option Assignee
deriving DecidableEq, Repr

/-- A FUB call record (fub.ts `FubCall`); `created` is the call timestamp. -/
structure FubCall where
  id : Nat
  personId : Nat
  created : Nat
  direction : String
deriving DecidableEq, Repr

/-- The `TIMER_MINUTES` constant of monitor.ts: the static 30-minute default. -/
def TIMER_MINUTES : Nat := 30

/-- The `REASSIGNED_TAG` constant of monitor.ts. -/
def REASSIGNED_TAG : String := "Reassigned"

/-- The filter `and(eq(fubLeadId, fid), eq(status, "pending"))` used by both
detection routines when they look for an existing active timer. -/
def pendingFor (fid : Nat) (r : LeadAssignment) : Bool :=
  decide (r.fubLeadId = fid ∧ r.status = Status.pending)

/-- The query `db.query.leadAssignments.findFirst` with the pending filter
(monitor.ts lines 30-35 and 148-153). -/
def findFirstPending (db : List LeadAssignment) (fid : Nat) : Option LeadAssignment :=
  db.find? (pendingFor fid)

/-- Number of pending rows for a given external lead id. -/
def countPending (db : List LeadAssignment) (fid : Nat) : Nat :=
  (db.filter (pendingFor fid)).length

/-- The core invariant of the spec: at most one pending row per external
lead id. -/
def AtMostOnePending (db : List LeadAssignment) : Prop :=
  ∀ fid : Nat, countPending db fid ≤ 1

/-- State touched by the detection routines: the `lead_assignments` table,
the next serial id, and the process-lifetime `seenLeads` map
(fubLeadId -> agentId, monitor.ts line 12). -/
structure DetectState where
  db : List LeadAssignment
  nextId : Nat
  seen : List (Nat × Nat)
deriving DecidableEq, Repr

/-- The read `seenLeads.get(leadId)` on the association-list model of the map. -/
def seenGet (m : List (Nat × Nat)) (k : Nat) : Option Nat :=
  (m.find? (fun e => decide (e.1 = k))).map Prod.snd

/-- The write `seenLeads.set(leadId, agentId)`: replace the binding if present,
otherwise append it. -/
def seenSet (m : List (Nat × Nat)) (k v : Nat) : List (Nat × Nat) :=
  if m.any (fun e => decide (e.1 = k)) then
    m.map (fun e => if e.1 = k then (k, v) else e)
  else
    m ++ [(k, v)]

/-- The row inserted by `db.insert(schema.leadAssignments).values({...})`
(monitor.ts lines 42-51 and 160-169): status pending, `assignedAt` = now,
`timerExpiresAt` = now + timerMinutes * 60 * 1000. -/
def newRow (nid : Nat) (lead : FubLead) (agent : Assignee) (now tm : Nat) :
    LeadAssignment :=
  { id := nid
    fubLeadId := lead.id
    agentId := agent.id
    agentName := agent.name
    agentEmail := agent.email.getD ""
    leadName := lead.name
    assignedAt := now
    timerExpiresAt := now + tm * 60 * 1000
    status := Status.pending
    callDetectedAt := none
    notifiedAt := none
    reassignedAt := none }

/-- Per-lead body of the detection loops (monitor.ts lines 20-57 and
138-175): skip unassigned leads; on an assignee change (including first
sighting) insert a pending row unless one already exists for the lead,
then update the seen map. -/
def processLead (now tm : Nat) (st : DetectState) (lead : FubLead) : DetectState :=
  match lead.assignedTo with
  | none => st
  | some agent =>
    if seenGet st.seen lead.id = some agent.id then st
    else
      let st1 :=
        match findFirstPending st.db lead.id with
        | some _ => st
        | none =>
          { st with
            db := st.db ++ [newRow st.nextId lead agent now tm]
            nextId := st.nextId + 1 }
      { st1 with seen := seenSet st1.seen lead.id agent.id }

/-- Function `checkForNewLeads` (monitor.ts lines 14-62): pond-based detection over
the fetched lead list, with the static `TIMER_MINUTES` timer. -/
def checkForNewLeads (now : Nat) (leads : List FubLead) (st : DetectState) :
    DetectState :=
  leads.foldl (processLead now TIMER_MINUTES) st

/-- The fallback `source.timerMinutes || TIMER_MINUTES` (monitor.ts line 157): JavaScript
falsy-or, so 0 falls back to the 30-minute default. -/
def sourceTimer (s : MonitoredSource) : Nat :=
  if s.timerMinutes = 0 then TIMER_MINUTES else s.timerMinutes

/-- Function `checkSourceLeads` (monitor.ts lines 124-181): for each enabled
monitored source, detection over the fetched leads of that source with
its timer. -/
def checkSourceLeads (now : Nat) (sources : List MonitoredSource)
    (leadsBySource : String → List FubLead) (st : DetectState) : DetectState :=
  (sources.filter (fun s => decide (s.enabled = 1))).foldl
    (fun acc s => (leadsBySource s.sourceName).foldl
      (processLead now (sourceTimer s)) acc) st

/-- One detection poll cycle, either pond-based or source-based. -/
inductive DetectCycle
  | pond (now : Nat) (leads : List FubLead)
  | sources (now : Nat) (srcs : List MonitoredSource)
      (fetch : String → List FubLead)

/-- Run one detection cycle. -/
def runCycle (st : DetectState) : DetectCycle → DetectState
  | DetectCycle.pond now leads => checkForNewLeads now leads st
  | DetectCycle.sources now srcs fetch => checkSourceLeads now srcs fetch st

/-- Run a sequence of detection cycles. -/
def runCycles (st : DetectState) (cs : List DetectCycle) : DetectState :=
  cs.foldl runCycle st

/-- Parameters of `sendTimerExpiredNotification` (email.ts lines 8-13). -/
structure NotifyParams where
  leadName : String
  agentName : String
  agentEmail : String
  assignedAt : Nat
deriving DecidableEq, Repr

/-- Outcome of one notification attempt (email.ts never throws: it returns
early when Resend is unconfigured or no recipients are set, and wraps the
send in try/catch). -/
inductive NotifyOutcome
  | skippedNoResend
  | skippedNoEmails
  | sent
  | sendFailed
deriving DecidableEq, Repr

/-- Function `sendTimerExpiredNotification` (email.ts lines 8-47): total function —
every failure path is absorbed internally, mirroring the early returns and
the try/catch around `resend.emails.send`. -/
def sendTimerExpiredNotification (resendConfigured : Bool)
    (notificationEmails : List String)
    (send : NotifyParams → Except Unit Unit) (params : NotifyParams) :
    NotifyOutcome :=
  if resendConfigured = false then NotifyOutcome.skippedNoResend
  else if notificationEmails.length = 0 then NotifyOutcome.skippedNoEmails
  else
    match send params with
    | Except.ok _ => NotifyOutcome.sent
    | Except.error _ => NotifyOutcome.sendFailed

/-- External oracles consumed by the resolution cycle: the FUB call-history
query and tag mutation (both can throw, fub.ts `fubFetch` raises on non-2xx)
and the notification transport configuration. -/
structure ResolveEnv where
  getPersonCalls : Nat → Nat → Except Unit (List FubCall)
  addTagToPerson : Nat → String → Except Unit Unit
  resendConfigured : Bool
  notificationEmails : List String
  resendSend : NotifyParams → Except Unit Unit

/-- Observable external attempts made by the resolution cycle. -/
inductive Event
  | tagAttempt (fubLeadId : Nat) (ok : Bool)
  | notifyAttempt (fubLeadId : Nat) (outcome : NotifyOutcome)
deriving DecidableEq, Repr

/-- An `Except` success as a Bool, to record the outcome of a tag attempt. -/
def exceptOk : Except Unit Unit → Bool
  | Except.ok _ => true
  | Except.error _ => false

/-- The drizzle update
`db.update(leadAssignments).set(f).where(eq(leadAssignments.id, tid))`:
rewrites every row whose id matches, unconditionally on status
(monitor.ts lines 204-209 and 229-235). -/
def applyUpdate (tid : Nat) (f : LeadAssignment → LeadAssignment)
    (db : List LeadAssignment) : List LeadAssignment :=
  db.map (fun r => if r.id = tid then f r else r)

/-- The `set` payload of the called transition: status := called,
`callDetectedAt` := the recorded call timestamp (monitor.ts lines 205-208). -/
def setCalled (t : Nat) (r : LeadAssignment) : LeadAssignment :=
  { r with status := Status.called, callDetectedAt := some t }

/-- The `set` payload of the reassigned transition: status := reassigned,
`notifiedAt` and `reassignedAt` := now (monitor.ts lines 230-234). -/
def setReassigned (now : Nat) (r : LeadAssignment) : LeadAssignment :=
  { r with
    status := Status.reassigned
    notifiedAt := some now
    reassignedAt := some now }

/-- Body of the per-row resolution in `checkExpiredTimersAndTag`
(monitor.ts lines 196-236).  The call-history query is awaited bare, so its
error propagates; if any call is returned the row is marked called with the
`created` of the FIRST element (`new Date(calls[0].created)`); otherwise the tag
attempt runs inside its own try/catch, the notification is dispatched (it
cannot throw), and the row is marked reassigned. -/
def processAssignment (env : ResolveEnv) (now : Nat)
    (db : List LeadAssignment) (a : LeadAssignment) :
    Except Unit (List LeadAssignment × List Event) :=
  match env.getPersonCalls a.fubLeadId a.assignedAt with
  | Except.error e => Except.error e
  | Except.ok (c :: _) =>
    Except.ok (applyUpdate a.id (setCalled c.created) db, [])
  | Except.ok [] =>
    let tagOk := exceptOk (env.addTagToPerson a.fubLeadId REASSIGNED_TAG)
    let out := sendTimerExpiredNotification env.resendConfigured
      env.notificationEmails env.resendSend
      ⟨a.leadName, a.agentName, a.agentEmail, a.assignedAt⟩
    Except.ok (applyUpdate a.id (setReassigned now) db,
      [Event.tagAttempt a.fubLeadId tagOk,
       Event.notifyAttempt a.fubLeadId out])

/-- The `for` loop of `checkExpiredTimersAndTag` under its single enclosing
try/catch: a thrown per-row error ends the whole loop, committing the
updates made so far (monitor.ts lines 187-240). -/
def resolveLoop (env : ResolveEnv) (now : Nat) :
    List LeadAssignment → List LeadAssignment → List Event →
    List LeadAssignment × List Event
  | [], db, evs => (db, evs)
  | a :: rest, db, evs =>
    match processAssignment env now db a with
    | Except.error _ => (db, evs)
    | Except.ok (db1, evs1) => resolveLoop env now rest db1 (evs ++ evs1)

/-- Function `checkExpiredTimersAndTag` (monitor.ts lines 184-241): select the rows
with status pending and `timerExpiresAt` < now, then run the resolution
loop over them. -/
def checkExpiredTimersAndTag (env : ResolveEnv) (now : Nat)
    (db : List LeadAssignment) : List LeadAssignment × List Event :=
  resolveLoop env now
    (db.filter (fun r => decide (r.status = Status.pending ∧ r.timerExpiresAt < now)))
    db []

/-- Earliest `created` timestamp among a returned call list. -/
def earliestCreated : List FubCall → Option Nat
  | [] => none
  | c :: cs => some (cs.foldl (fun m d => min m d.created) c.created)

/-- Function `addTagToPerson` (fub.ts lines 99-114) as a function on the tag list
of the person: fetch current tags, and only when the tag is absent issue the PUT
appending it.  The Bool records whether a mutation (PUT) was issued. -/
def addTagToPerson (tag : String) (tags : List String) : List String × Bool :=
  if tag ∈ tags then (tags, false) else (tags ++ [tag], true)

/-- Route `POST /api/sources/monitored` (index section of schema.ts, lines
201-222): 400 when `sourceName` is missing, 400 on a unique violation,
otherwise insert with `timerMinutes` defaulting to 30 and `enabled`
defaulting to 1; no bound is checked on `timerMinutes`. -/
def postMonitoredSource (sourceName : Option String)
    (timerMinutes : Option Nat) (createdBy : Option String)
    (nextId now : Nat) (db : List MonitoredSource) :
    Except String (List MonitoredSource) :=
  match sourceName with
  | none => Except.error "sourceName is required"
  | some name =>
    if db.any (fun s => decide (s.sourceName = name)) then
      Except.error "Source already being monitored"
    else
      Except.ok (db ++
        [{ id := nextId
           sourceName := name
           timerMinutes := timerMinutes.getD 30
           enabled := 1
           createdAt := now
           createdBy := createdBy }])

/-- Route `PATCH /api/sources/monitored/:id` (schema.ts lines 230-243): update
`enabled` and/or `timerMinutes` on the matching row when supplied; no bound
is checked on `timerMinutes`. -/
def patchMonitoredSource (sid : Nat) (enabled : Option Bool)
    (timerMinutes : Option Nat) (db : List MonitoredSource) :
    List MonitoredSource :=
  db.map (fun s =>
    if s.id = sid then
      { s with
        enabled := match enabled with
          | some b => if b then 1 else 0
          | none => s.enabled
        timerMinutes := timerMinutes.getD s.timerMinutes }
    else s)

/-! Helper equations for the per-row resolution body. -/

/-- When the call-history query throws, the per-row resolution rethrows. -/
theorem processAssignment_error (env : ResolveEnv) (now : Nat)
    (db : List LeadAssignment) (a : LeadAssignment) (e : Unit)
    (h : env.getPersonCalls a.fubLeadId a.assignedAt = Except.error e) :
    processAssignment env now db a = Except.error e := by
  unfold processAssignment
  rw [h]

/-- When the call-history query returns a nonempty list, the per-row
resolution issues only the called-transition update, with the timestamp of the head
element, and records no external attempt. -/
theorem processAssignment_called (env : ResolveEnv) (now : Nat)
    (db : List LeadAssignment) (a : LeadAssignment) (c : FubCall)
    (cs : List FubCall)
    (h : env.getPersonCalls a.fubLeadId a.assignedAt = Except.ok (c :: cs)) :
    processAssignment env now db a
      = Except.ok (applyUpdate a.id (setCalled c.created) db, []) := by
  unfold processAssignment
  rw [h]

/-- When the call-history query returns no call, the per-row resolution
makes one tag attempt and one notification attempt and issues the
reassigned-transition update, whatever the attempts return. -/
theorem processAssignment_nocall (env : ResolveEnv) (now : Nat)
    (db : List LeadAssignment) (a : LeadAssignment)
    (h : env.getPersonCalls a.fubLeadId a.assignedAt = Except.ok []) :
    processAssignment env now db a
      = Except.ok (applyUpdate a.id (setReassigned now) db,
          [Event.tagAttempt a.fubLeadId
             (exceptOk (env.addTagToPerson a.fubLeadId REASSIGNED_TAG)),
           Event.notifyAttempt a.fubLeadId
             (sendTimerExpiredNotification env.resendConfigured
               env.notificationEmails env.resendSend
               ⟨a.leadName, a.agentName, a.agentEmail, a.assignedAt⟩)]) := by
  unfold processAssignment
  rw [h]

/-- Claim C4: for an expired pending row whose call-history query returns
at least one call, resolution issues the called transition (never
reassigned), whatever the length of the call list, and makes no tag
attempt and no notification attempt for that row (the event list is
empty). -/
theorem call_precedence_resolves_called (env : ResolveEnv) (now : Nat)
    (db : List LeadAssignment) (a : LeadAssignment) (c : FubCall)
    (cs : List FubCall)
    (h : env.getPersonCalls a.fubLeadId a.assignedAt = Except.ok (c :: cs)) :
    processAssignment env now db a
      = Except.ok (applyUpdate a.id (setCalled c.created) db, []) ∧
    ∀ r : LeadAssignment, (setCalled c.created r).status = Status.called := by
  exact ⟨processAssignment_called env now db a c cs h, fun r => rfl⟩

/-- A pending, expired sample row used by concrete witnesses. -/
def rowW4 : LeadAssignment :=
  ⟨1, 10, 5, "Agent A", "a@x", "Lead L", 0, 10, Status.pending, none, none, none⟩

/-- An environment whose call-history query returns one call and whose tag
and send oracles both fail. -/
def envC4 : ResolveEnv :=
  { getPersonCalls := fun _ _ => Except.ok [⟨1, 10, 42, "outbound"⟩]
    addTagToPerson := fun _ _ => Except.error ()
    resendConfigured := true
    notificationEmails := ["ops@spyglass"]
    resendSend := fun _ => Except.error () }

/-- Witness for C4 at a concrete environment and row. -/
theorem call_precedence_resolves_called_witness :
    processAssignment envC4 99 [rowW4] rowW4
      = Except.ok (applyUpdate rowW4.id (setCalled 42) [rowW4], []) :=
  (call_precedence_resolves_called envC4 99 [rowW4] rowW4
    ⟨1, 10, 42, "outbound"⟩ [] rfl).1

/-- Claim C5: for an expired pending row with no qualifying call,
resolution issues the reassigned transition with both terminal timestamps
set, preceded by exactly one tag attempt and exactly one notification
attempt; the resulting row update does not depend on either attempt
outcome, and the env is arbitrary, so a failing tag oracle or a failing
send oracle leaves the transition and the other attempt intact. -/
theorem no_call_escalation_exactly_once (env : ResolveEnv) (now : Nat)
    (db : List LeadAssignment) (a : LeadAssignment)
    (h : env.getPersonCalls a.fubLeadId a.assignedAt = Except.ok []) :
    processAssignment env now db a
      = Except.ok (applyUpdate a.id (setReassigned now) db,
          [Event.tagAttempt a.fubLeadId
             (exceptOk (env.addTagToPerson a.fubLeadId REASSIGNED_TAG)),
           Event.notifyAttempt a.fubLeadId
             (sendTimerExpiredNotification env.resendConfigured
               env.notificationEmails env.resendSend
               ⟨a.leadName, a.agentName, a.agentEmail, a.assignedAt⟩)]) ∧
    ∀ r : LeadAssignment,
      (setReassigned now r).status = Status.reassigned ∧
      (setReassigned now r).notifiedAt = some now ∧
      (setReassigned now r).reassignedAt = some now := by
  exact ⟨processAssignment_nocall env now db a h, fun r => ⟨rfl, rfl, rfl⟩⟩

/-- An environment with no calls and with failing tag and send oracles. -/
def envC5 : ResolveEnv :=
  { getPersonCalls := fun _ _ => Except.ok []
    addTagToPerson := fun _ _ => Except.error ()
    resendConfigured := true
    notificationEmails := ["ops@spyglass"]
    resendSend := fun _ => Except.error () }

/-- Witness for C5 at a concrete environment where both side-effect
oracles fail: the transition still happens and both attempts are made. -/
theorem no_call_escalation_exactly_once_witness :
    processAssignment envC5 77 [rowW4] rowW4
      = Except.ok (applyUpdate rowW4.id (setReassigned 77) [rowW4],
          [Event.tagAttempt rowW4.fubLeadId
             (exceptOk (envC5.addTagToPerson rowW4.fubLeadId REASSIGNED_TAG)),
           Event.notifyAttempt rowW4.fubLeadId
             (sendTimerExpiredNotification envC5.resendConfigured
               envC5.notificationEmails envC5.resendSend
               ⟨rowW4.leadName, rowW4.agentName, rowW4.agentEmail,
                rowW4.assignedAt⟩)]) :=
  (no_call_escalation_exactly_once envC5 77 [rowW4] rowW4 rfl).1

/-- Folding min over a list everywhere at least the seed leaves the seed. -/
theorem foldl_min_created_eq_self (x : Nat) :
    ∀ l : List FubCall, (∀ d ∈ l, x ≤ d.created) →
      l.foldl (fun m d => min m d.created) x = x
  | [], _ => rfl
  | d :: ds, h => by
    simp only [List.foldl_cons]
    rw [min_eq_left (h d (List.mem_cons_self d ds))]
    exact foldl_min_created_eq_self x ds (fun e he => h e (List.mem_cons_of_mem d he))

/-- The returned call list of the C7 counterexample: the first element is
not the earliest. -/
def callsC7 : List FubCall :=
  [⟨1, 10, 500, "outbound"⟩, ⟨2, 10, 100, "inbound"⟩]

/-- Environment returning `callsC7` for every call-history query. -/
def envC7 : ResolveEnv :=
  { getPersonCalls := fun _ _ => Except.ok callsC7
    addTagToPerson := fun _ _ => Except.ok ()
    resendConfigured := false
    notificationEmails := []
    resendSend := fun _ => Except.ok () }

/-- Counterexample to C7: the code records `calls[0].created`, here 500,
although the earliest returned call timestamp is 100. -/
theorem callDetectedAt_first_element_not_earliest :
    (checkExpiredTimersAndTag envC7 1000 [rowW4]).1
      = [{ rowW4 with status := Status.called, callDetectedAt := some 500 }] ∧
    earliestCreated callsC7 = some 100 ∧
    (500 : Nat) ≠ 100 := by decide

/-- Claim C7 (amended): on the called transition the recorded
`callDetectedAt` is the `created` of the FIRST element of the returned
call list; it coincides with the earliest returned timestamp only under
the extra assumption that the head is minimal (for instance when the list
is ascending). -/
theorem callDetectedAt_head_of_returned_calls (env : ResolveEnv) (now : Nat)
    (db : List LeadAssignment) (a : LeadAssignment) (c : FubCall)
    (cs : List FubCall)
    (h : env.getPersonCalls a.fubLeadId a.assignedAt = Except.ok (c :: cs)) :
    processAssignment env now db a
      = Except.ok (applyUpdate a.id (setCalled c.created) db, []) ∧
    ((∀ d ∈ cs, c.created ≤ d.created) →
      earliestCreated (c :: cs) = some c.created) := by
  refine ⟨processAssignment_called env now db a c cs h, fun hmin => ?_⟩
  simp only [earliestCreated]
  rw [foldl_min_created_eq_self c.created cs hmin]

/-- Witness for the amended C7 at a concrete sorted call list. -/
theorem callDetectedAt_head_of_returned_calls_witness :
    processAssignment envC4 99 [rowW4] rowW4
      = Except.ok (applyUpdate rowW4.id (setCalled 42) [rowW4], [])
    ∧ earliestCreated [⟨1, 10, 42, "outbound"⟩] = some 42 :=
  ⟨(callDetectedAt_head_of_returned_calls envC4 99 [rowW4] rowW4
      ⟨1, 10, 42, "outbound"⟩ [] rfl).1,
   (callDetectedAt_head_of_returned_calls envC4 99 [rowW4] rowW4
      ⟨1, 10, 42, "outbound"⟩ [] rfl).2 (by simp)⟩

/-- Claim C8: applying the tag when it is already present issues no PUT
and leaves the tag list unchanged, and applying the tag twice yields the
same tag list as applying it once. -/
theorem addTagToPerson_idempotent (tag : String) (tags : List String) :
    (tag ∈ tags → addTagToPerson tag tags = (tags, false)) ∧
    (addTagToPerson tag (addTagToPerson tag tags).1).1
      = (addTagToPerson tag tags).1 := by
  constructor
  · intro h
    simp [addTagToPerson, h]
  · by_cases h : tag ∈ tags
    · simp [addTagToPerson, h]
    · simp [addTagToPerson, h]

/-- Witness for C8 at a concrete person tag list. -/
theorem addTagToPerson_idempotent_witness :
    addTagToPerson "Reassigned" ["Reassigned"] = (["Reassigned"], false) :=
  (addTagToPerson_idempotent "Reassigned" ["Reassigned"]).1 (by simp)

/-- Counterexample to C9: the create route stores a timer duration of 500
minutes, outside [1,120]; neither the route nor the schema checks the
bound. -/
theorem monitored_source_timer_bound_not_enforced :
    postMonitoredSource (some "Zillow") (some 500) none 1 0 []
      = Except.ok [⟨1, "Zillow", 500, 1, 0, none⟩] ∧
    ¬ (500 ≤ 120) := ⟨rfl, by decide⟩

/-- Claim C9 (amended): the create and update routes store whatever timer
duration the request supplies, verbatim (create defaults to 30 only when
the field is absent); the [1,120] bound is not enforced by either
operation. -/
theorem monitored_source_timer_stored_verbatim (name : String) (tm : Nat)
    (cb : Option String) (nid now : Nat) (db : List MonitoredSource)
    (h : db.any (fun s => decide (s.sourceName = name)) = false) :
    postMonitoredSource (some name) (some tm) cb nid now db
      = Except.ok (db ++ [⟨nid, name, tm, 1, now, cb⟩]) ∧
    (∀ sid e db2, patchMonitoredSource sid e (some tm) db2
      = db2.map (fun s =>
          if s.id = sid then
            { s with
              enabled := match e with
                | some b => if b then 1 else 0
                | none => s.enabled
              timerMinutes := tm }
          else s)) := by
  constructor
  · simp [postMonitoredSource, h]
  · intro sid e db2
    rfl

/-- Witness for the amended C9: a concrete create stores 7 verbatim. -/
theorem monitored_source_timer_stored_verbatim_witness :
    postMonitoredSource (some "Zillow") (some 7) none 1 0 []
      = Except.ok [⟨1, "Zillow", 7, 1, 0, none⟩] :=
  (monitored_source_timer_stored_verbatim "Zillow" 7 none 1 0 [] rfl).1

/-- Claim C10: a fetched lead with no current assignee leaves the whole
detection state unchanged: no row is inserted and the seen map keeps its
previous bindings, including for that lead id. -/
theorem unassigned_lead_no_effect (now tm : Nat) (st : DetectState)
    (lead : FubLead) (h : lead.assignedTo = none) :
    processLead now tm st lead = st := by
  simp [processLead, h]

/-- Witness for C10 at a concrete unassigned lead. -/
theorem unassigned_lead_no_effect_witness :
    processLead 0 30 ⟨[], 1, [(7, 9)]⟩ ⟨7, "Lead L", none⟩ = ⟨[], 1, [(7, 9)]⟩ :=
  unassigned_lead_no_effect 0 30 ⟨[], 1, [(7, 9)]⟩ ⟨7, "Lead L", none⟩ rfl

/-- Case analysis of one detection step: either the table is untouched, or
an assignee change was observed, no pending row existed for the lead, and
exactly the new pending row was appended. -/
theorem processLead_db_cases (now tm : Nat) (st : DetectState) (lead : FubLead) :
    (processLead now tm st lead).db = st.db ∨
    ∃ agent, lead.assignedTo = some agent ∧
      findFirstPending st.db lead.id = none ∧
      (processLead now tm st lead).db
        = st.db ++ [newRow st.nextId lead agent now tm] := by
  cases hA : lead.assignedTo with
  | none => left; simp [processLead, hA]
  | some agent =>
    by_cases hseen : seenGet st.seen lead.id = some agent.id
    · left; simp [processLead, hA, hseen]
    · cases hfind : findFirstPending st.db lead.id with
      | some x => left; simp [processLead, hA, hseen, hfind]
      | none =>
        right
        exact ⟨agent, rfl, rfl, by simp [processLead, hA, hseen, hfind]⟩

/-- Claim C6: every row the detection step inserts carries
`timerExpiresAt` = `assignedAt` + timer minutes * 60 * 1000, where the
pond routine fixes the timer at the static 30-minute default and the
source routine uses the source timer, falling back to 30 when the stored
value is falsy. -/
theorem timer_computation :
    (∀ now tm st lead, (processLead now tm st lead).db = st.db ∨
      ∃ agent, lead.assignedTo = some agent ∧
        (processLead now tm st lead).db
          = st.db ++ [newRow st.nextId lead agent now tm] ∧
        (newRow st.nextId lead agent now tm).assignedAt = now ∧
        (newRow st.nextId lead agent now tm).timerExpiresAt
          = now + tm * 60 * 1000 ∧
        (newRow st.nextId lead agent now tm).status = Status.pending) ∧
    (∀ now leads st,
      checkForNewLeads now leads st = leads.foldl (processLead now 30) st) ∧
    (∀ s, sourceTimer s = if s.timerMinutes = 0 then 30 else s.timerMinutes) := by
  refine ⟨?_, fun now leads st => rfl, fun s => rfl⟩
  intro now tm st lead
  rcases processLead_db_cases now tm st lead with hdb | ⟨agent, hA, _, hdb⟩
  · exact Or.inl hdb
  · exact Or.inr ⟨agent, hA, hdb, rfl, rfl, rfl⟩

/-- A terminal (called) row used by the C1 counterexample. -/
def rowC1 : LeadAssignment :=
  ⟨1, 10, 5, "Agent A", "a@x", "Lead L", 0, 10, Status.called, some 3, none, none⟩

/-- Counterexample to C1: the terminal-transition store update embedded
from the source is keyed on the row id alone; applied to a row whose
status is already called it rewrites the row instead of affecting zero
rows, so it is not a conditional update on status = pending. -/
theorem applyUpdate_unconditional_on_terminal_row :
    rowC1.status = Status.called ∧
    applyUpdate 1 (setReassigned 100) [rowC1] = [setReassigned 100 rowC1] ∧
    setReassigned 100 rowC1 ≠ rowC1 := by decide

/-- First expired pending row of the C3 counterexample; its call-history
query throws. -/
def rowC3a : LeadAssignment :=
  ⟨1, 1, 5, "Agent A", "", "Lead A", 0, 10, Status.pending, none, none, none⟩

/-- Second expired pending row of the C3 counterexample; its call-history
query succeeds and returns a call. -/
def rowC3b : LeadAssignment :=
  ⟨2, 2, 6, "Agent B", "", "Lead B", 0, 10, Status.pending, none, none, none⟩

/-- Environment whose call-history query throws for lead 1 and returns one
call for every other lead. -/
def envC3 : ResolveEnv :=
  { getPersonCalls := fun pid _ =>
      if pid = 1 then Except.error () else Except.ok [⟨9, 2, 100, "outbound"⟩]
    addTagToPerson := fun _ _ => Except.ok ()
    resendConfigured := false
    notificationEmails := []
    resendSend := fun _ => Except.ok () }

/-- Counterexample to C3: with two expired pending rows, a thrown error on
the first row leaves the second row unprocessed (still pending), although
the same cycle run on the second row alone does process it to called. -/
theorem resolution_row_failure_aborts_cycle :
    (checkExpiredTimersAndTag envC3 50 [rowC3a, rowC3b]).1 = [rowC3a, rowC3b] ∧
    rowC3b.status = Status.pending ∧
    (checkExpiredTimersAndTag envC3 50 [rowC3b]).1
      = [{ rowC3b with status := Status.called, callDetectedAt := some 100 }] := by
  refine ⟨rfl, rfl, rfl⟩

/-- The committed table of the resolution loop does not depend on the tag
oracle or the notification configuration, only on the call-history
oracle. -/
theorem resolveLoop_db_congr (env1 env2 : ResolveEnv) (now : Nat)
    (hc : env1.getPersonCalls = env2.getPersonCalls) :
    ∀ (as db : List LeadAssignment) (evs1 evs2 : List Event),
      (resolveLoop env1 now as db evs1).1 = (resolveLoop env2 now as db evs2).1 := by
  intro as
  induction as with
  | nil => intro db e1 e2; rfl
  | cons a rest ih =>
    intro db e1 e2
    simp only [resolveLoop]
    cases hcall : env1.getPersonCalls a.fubLeadId a.assignedAt with
    | error e =>
      have h2 : env2.getPersonCalls a.fubLeadId a.assignedAt = Except.error e := by
        rw [← hc]; exact hcall
      rw [processAssignment_error env1 now db a e hcall,
        processAssignment_error env2 now db a e h2]
    | ok l =>
      cases l with
      | nil =>
        have h2 : env2.getPersonCalls a.fubLeadId a.assignedAt = Except.ok [] := by
          rw [← hc]; exact hcall
        rw [processAssignment_nocall env1 now db a hcall,
          processAssignment_nocall env2 now db a h2]
        exact ih _ _ _
      | cons c cs =>
        have h2 : env2.getPersonCalls a.fubLeadId a.assignedAt
            = Except.ok (c :: cs) := by
          rw [← hc]; exact hcall
        rw [processAssignment_called env1 now db a c cs hcall,
          processAssignment_called env2 now db a c cs h2]
        exact ih _ _ _

/-- Claim C3 (amended): only the tag attempt is isolated per row — the
committed table is the same whatever the tag oracle or notification
transport does — while a thrown call-history error aborts the cycle,
leaving the table as committed so far; with the error on every query,
the table is returned unchanged with no attempts made. -/
theorem resolution_error_isolation_amended :
    (∀ env1 env2 : ResolveEnv, env1.getPersonCalls = env2.getPersonCalls →
      ∀ now db, (checkExpiredTimersAndTag env1 now db).1
        = (checkExpiredTimersAndTag env2 now db).1) ∧
    (∀ env : ResolveEnv, (∀ p s, env.getPersonCalls p s = Except.error ()) →
      ∀ now db, checkExpiredTimersAndTag env now db = (db, [])) := by
  constructor
  · intro env1 env2 hc now db
    unfold checkExpiredTimersAndTag
    exact resolveLoop_db_congr env1 env2 now hc _ db [] []
  · intro env h now db
    unfold checkExpiredTimersAndTag
    cases hexp : db.filter
        (fun r => decide (r.status = Status.pending ∧ r.timerExpiresAt < now)) with
    | nil => rfl
    | cons a rest =>
      simp only [resolveLoop]
      rw [processAssignment_error env now db a () (h a.fubLeadId a.assignedAt)]

/-- Environment with no calls and a failing tag oracle. -/
def failTagEnv : ResolveEnv :=
  { getPersonCalls := fun _ _ => Except.ok []
    addTagToPerson := fun _ _ => Except.error ()
    resendConfigured := false
    notificationEmails := []
    resendSend := fun _ => Except.ok () }

/-- The same environment with a succeeding tag oracle. -/
def okTagEnv : ResolveEnv :=
  { failTagEnv with addTagToPerson := fun _ _ => Except.ok () }

/-- Environment whose call-history query always throws. -/
def errCallEnv : ResolveEnv :=
  { failTagEnv with getPersonCalls := fun _ _ => Except.error () }

/-- Witness for the amended C3 at concrete environments: a failing versus
a succeeding tag oracle commit the same table, and an always-throwing
call-history oracle returns the table unchanged. -/
theorem resolution_error_isolation_amended_witness :
    (checkExpiredTimersAndTag failTagEnv 50 [rowC3a, rowC3b]).1
      = (checkExpiredTimersAndTag okTagEnv 50 [rowC3a, rowC3b]).1 ∧
    checkExpiredTimersAndTag errCallEnv 50 [rowC3a, rowC3b]
      = ([rowC3a, rowC3b], []) :=
  ⟨resolution_error_isolation_amended.1 failTagEnv okTagEnv rfl 50
      [rowC3a, rowC3b],
   resolution_error_isolation_amended.2 errCallEnv (fun _ _ => rfl) 50
      [rowC3a, rowC3b]⟩

/-- The keyed update leaves the table length unchanged. -/
theorem applyUpdate_length (tid : Nat) (f : LeadAssignment → LeadAssignment)
    (db : List LeadAssignment) : (applyUpdate tid f db).length = db.length := by
  simp [applyUpdate]

/-- A row whose id is not the update key is untouched, position by
position. -/
theorem applyUpdate_getElem_ne (tid : Nat) (f : LeadAssignment → LeadAssignment)
    (db : List LeadAssignment) (i : Nat) (r : LeadAssignment)
    (h : db[i]? = some r) (hne : r.id ≠ tid) :
    (applyUpdate tid f db)[i]? = some r := by
  unfold applyUpdate
  rw [List.getElem?_map, h]
  simp [hne]

/-- The resolution loop never inserts or deletes rows. -/
theorem resolveLoop_length (env : ResolveEnv) (now : Nat) :
    ∀ (as db : List LeadAssignment) (evs : List Event),
      (resolveLoop env now as db evs).1.length = db.length := by
  intro as
  induction as with
  | nil => intro db evs; rfl
  | cons a rest ih =>
    intro db evs
    simp only [resolveLoop]
    cases hcall : env.getPersonCalls a.fubLeadId a.assignedAt with
    | error e => rw [processAssignment_error env now db a e hcall]
    | ok l =>
      cases l with
      | nil =>
        rw [processAssignment_nocall env now db a hcall]
        rw [show (match (Except.ok (applyUpdate a.id (setReassigned now) db,
            [Event.tagAttempt a.fubLeadId
               (exceptOk (env.addTagToPerson a.fubLeadId REASSIGNED_TAG)),
             Event.notifyAttempt a.fubLeadId
               (sendTimerExpiredNotification env.resendConfigured
                 env.notificationEmails env.resendSend
                 ⟨a.leadName, a.agentName, a.agentEmail, a.assignedAt⟩)]) :
            Except Unit (List LeadAssignment × List Event)) with
          | Except.error _ => (db, evs)
          | Except.ok (db1, evs1) => resolveLoop env now rest db1 (evs ++ evs1))
          = resolveLoop env now rest (applyUpdate a.id (setReassigned now) db)
              (evs ++ [Event.tagAttempt a.fubLeadId
                 (exceptOk (env.addTagToPerson a.fubLeadId REASSIGNED_TAG)),
               Event.notifyAttempt a.fubLeadId
                 (sendTimerExpiredNotification env.resendConfigured
                   env.notificationEmails env.resendSend
                   ⟨a.leadName, a.agentName, a.agentEmail, a.assignedAt⟩)]) from rfl]
        rw [ih _ _, applyUpdate_length]
      | cons c cs =>
        rw [processAssignment_called env now db a c cs hcall]
        rw [show (match (Except.ok (applyUpdate a.id (setCalled c.created) db,
            ([] : List Event)) : Except Unit (List LeadAssignment × List Event)) with
          | Except.error _ => (db, evs)
          | Except.ok (db1, evs1) => resolveLoop env now rest db1 (evs ++ evs1))
          = resolveLoop env now rest (applyUpdate a.id (setCalled c.created) db)
              (evs ++ []) from rfl]
        rw [ih _ _, applyUpdate_length]

/-- A row whose id differs from the id of every processed assignment is
untouched by the resolution loop, position by position. -/
theorem resolveLoop_preserves (env : ResolveEnv) (now : Nat) :
    ∀ (as db : List LeadAssignment) (evs : List Event) (i : Nat)
      (r : LeadAssignment), db[i]? = some r → (∀ a ∈ as, a.id ≠ r.id) →
      (resolveLoop env now as db evs).1[i]? = some r := by
  intro as
  induction as with
  | nil => intro db evs i r h _; exact h
  | cons a rest ih =>
    intro db evs i r h hne
    have hr : r.id ≠ a.id := fun hEq =>
      hne a (List.mem_cons_self a rest) hEq.symm
    simp only [resolveLoop]
    cases hcall : env.getPersonCalls a.fubLeadId a.assignedAt with
    | error e =>
      rw [processAssignment_error env now db a e hcall]
      exact h
    | ok l =>
      cases l with
      | nil =>
        rw [processAssignment_nocall env now db a hcall]
        exact ih _ _ i r (applyUpdate_getElem_ne a.id _ db i r h hr)
          (fun b hb => hne b (List.mem_cons_of_mem a hb))
      | cons c cs =>
        rw [processAssignment_called env now db a c cs hcall]
        exact ih _ _ i r (applyUpdate_getElem_ne a.id _ db i r h hr)
          (fun b hb => hne b (List.mem_cons_of_mem a hb))

/-- Claim C1 (amended): under distinct row ids, one run of
`checkExpiredTimersAndTag` keeps every non-pending row exactly as it was —
same position, same status, same `callDetectedAt`, `notifiedAt`,
`reassignedAt` — because the expired-row query selects only pending rows;
the store update itself, however, is keyed on the row id alone (see the
counterexample), not conditioned on status. -/
theorem resolution_preserves_terminal_rows (env : ResolveEnv) (now : Nat)
    (db : List LeadAssignment) (hN : (db.map LeadAssignment.id).Nodup) :
    (checkExpiredTimersAndTag env now db).1.length = db.length ∧
    ∀ (i : Nat) (r : LeadAssignment), db[i]? = some r →
      r.status ≠ Status.pending →
      (checkExpiredTimersAndTag env now db).1[i]? = some r := by
  constructor
  · unfold checkExpiredTimersAndTag
    exact resolveLoop_length env now _ db []
  · intro i r h hr
    unfold checkExpiredTimersAndTag
    apply resolveLoop_preserves env now _ db [] i r h
    intro a ha
    have haDb : a ∈ db := (List.mem_filter.mp ha).1
    have hap : a.status = Status.pending := by
      have hp := (List.mem_filter.mp ha).2
      simp only [decide_eq_true_eq] at hp
      exact hp.1
    have hrDb : r ∈ db := List.getElem?_mem h
    intro hEq
    have hEq2 : a = r := List.inj_on_of_nodup_map hN haDb hrDb hEq
    rw [hEq2] at hap
    exact hr hap

/-- A pending expired row sharing no id with `rowC1`. -/
def rowP2 : LeadAssignment :=
  ⟨2, 11, 5, "Agent A", "a@x", "Lead M", 0, 10, Status.pending, none, none, none⟩

/-- Witness for the amended C1: a concrete table holding one called row
and one pending expired row; after the cycle the called row is unchanged
at its position. -/
theorem resolution_preserves_terminal_rows_witness :
    (checkExpiredTimersAndTag failTagEnv 50 [rowC1, rowP2]).1.length = 2 ∧
    (checkExpiredTimersAndTag failTagEnv 50 [rowC1, rowP2]).1[0]? = some rowC1 :=
  ⟨(resolution_preserves_terminal_rows failTagEnv 50 [rowC1, rowP2]
      (by decide)).1,
   (resolution_preserves_terminal_rows failTagEnv 50 [rowC1, rowP2]
      (by decide)).2 0 rowC1 rfl (by decide)⟩

/-- Pending-row counts add over an append of tables. -/
theorem countPending_append (db l : List LeadAssignment) (fid : Nat) :
    countPending (db ++ l) fid = countPending db fid + countPending l fid := by
  simp [countPending, List.filter_append]

/-- If the findFirst used by detection returns no pending row for an id,
that id has zero pending rows. -/
theorem countPending_eq_zero_of_find_none {db : List LeadAssignment}
    {fid : Nat} (h : findFirstPending db fid = none) :
    countPending db fid = 0 := by
  unfold countPending
  rw [List.length_eq_zero, List.filter_eq_nil_iff]
  exact List.find?_eq_none.mp h

/-- A one-row table with a pending row for the id counts one. -/
theorem countPending_singleton_pending (r : LeadAssignment) (fid : Nat)
    (h1 : r.fubLeadId = fid) (h2 : r.status = Status.pending) :
    countPending [r] fid = 1 := by
  simp [countPending, pendingFor, List.filter_cons, h1, h2]

/-- A one-row table whose row is for another id counts zero. -/
theorem countPending_singleton_ne (r : LeadAssignment) (fid : Nat)
    (h : r.fubLeadId ≠ fid) : countPending [r] fid = 0 := by
  simp [countPending, pendingFor, List.filter_cons, h]

/-- One detection step preserves the at-most-one-pending invariant: a row
is inserted only when the guard found zero pending rows for its lead. -/
theorem processLead_preserves_amop (now tm : Nat) (st : DetectState)
    (lead : FubLead) (h : AtMostOnePending st.db) :
    AtMostOnePending (processLead now tm st lead).db := by
  rcases processLead_db_cases now tm st lead with hdb | ⟨agent, _, hfind, hdb⟩
  · rw [hdb]; exact h
  · intro fid
    rw [hdb, countPending_append]
    by_cases hfid : fid = lead.id
    · subst hfid
      have h0 : countPending st.db lead.id = 0 :=
        countPending_eq_zero_of_find_none hfind
      have h1 : countPending [newRow st.nextId lead agent now tm] lead.id = 1 :=
        countPending_singleton_pending _ _ rfl rfl
      omega
    · have h1 : countPending [newRow st.nextId lead agent now tm] fid = 0 :=
        countPending_singleton_ne _ _ (fun hc => hfid hc.symm)
      have h2 := h fid
      omega

/-- A fold over detection steps preserves the invariant. -/
theorem foldl_preserves_amop {α : Type} (f : DetectState → α → DetectState)
    (hf : ∀ st a, AtMostOnePending st.db → AtMostOnePending (f st a).db) :
    ∀ (l : List α) (st : DetectState),
      AtMostOnePending st.db → AtMostOnePending (l.foldl f st).db := by
  intro l
  induction l with
  | nil => intro st h; exact h
  | cons a rest ih => intro st h; exact ih (f st a) (hf st a h)

/-- Each cycle of either detection routine preserves the invariant. -/
theorem runCycle_preserves_amop (st : DetectState) (c : DetectCycle)
    (h : AtMostOnePending st.db) : AtMostOnePending (runCycle st c).db := by
  cases c with
  | pond now leads =>
    exact foldl_preserves_amop (processLead now TIMER_MINUTES)
      (fun s l => processLead_preserves_amop now TIMER_MINUTES s l) leads st h
  | sources now srcs fetch =>
    exact foldl_preserves_amop _
      (fun acc s hacc => foldl_preserves_amop (processLead now (sourceTimer s))
        (fun s2 l => processLead_preserves_amop now (sourceTimer s) s2 l)
        (fetch s.sourceName) acc hacc)
      (srcs.filter (fun s => decide (s.enabled = 1))) st h

/-- Claim C2: starting from a table with at most one pending row per
external lead id, every sequence of detection cycles (pond-based or
source-based) keeps that invariant; moreover a detection step on a lead
that already has a pending row inserts nothing. -/
theorem detection_at_most_one_pending (st : DetectState)
    (h : AtMostOnePending st.db) (cs : List DetectCycle) :
    AtMostOnePending (runCycles st cs).db ∧
    (∀ (now tm : Nat) (lead : FubLead) (x : LeadAssignment),
      findFirstPending st.db lead.id = some x →
      (processLead now tm st lead).db = st.db) := by
  constructor
  · have main : ∀ (cs2 : List DetectCycle) (st2 : DetectState),
        AtMostOnePending st2.db → AtMostOnePending (runCycles st2 cs2).db := by
      intro cs2
      induction cs2 with
      | nil => intro st2 h2; exact h2
      | cons c rest ih =>
        intro st2 h2
        exact ih (runCycle st2 c) (runCycle_preserves_amop st2 c h2)
    exact main cs st h
  · intro now tm lead x hfind
    cases hA : lead.assignedTo with
    | none => simp [processLead, hA]
    | some agent =>
      by_cases hseen : seenGet st.seen lead.id = some agent.id
      · simp [processLead, hA, hseen]
      · simp [processLead, hA, hseen, hfind]

/-- Witness for C2: two sightings of the same lead across a pond cycle
and a source cycle leave a table satisfying the invariant. -/
theorem detection_at_most_one_pending_witness :
    AtMostOnePending ((runCycles ⟨[], 1, []⟩
      [DetectCycle.pond 0 [⟨7, "Lead L", some ⟨2, "Agent A", none⟩⟩],
       DetectCycle.sources 5 [⟨1, "Zillow", 15, 1, 0, none⟩]
         (fun _ => [⟨7, "Lead L", some ⟨3, "Agent B", none⟩⟩])]).db) :=
  (detection_at_most_one_pending ⟨[], 1, []⟩
    (fun fid => by simp [countPending]) _).1
